import Mathlib

/-!
# Verification of the GitLab configuration tool's retrying executor and
# idempotent reconciliation protocol

Shallow embedding of `src/api/client.py` (class `GitLabClient`: the
`_with_retries` executor and the check-then-act reconciliation methods
`branch_exists`, `create_branch`, `is_branch_protected`, `protect_branch`,
`approval_rule_exists`, `add_approval_rule`) and of the module-level probe
`branch_exists` from `src/api/branches.py`.

Conventions of the embedding:
* Python exceptions become `Except Fault`; the exception class hierarchy is
  collapsed to the `FaultKind` tag (`GitlabGetError` / `GitlabCreateError` /
  any other `GitlabError`), which is all the source's `except` clauses
  dispatch on.
* `getattr(e, 'response_code', 500)` becomes `Fault.statusCode`, with the
  absent attribute modelled as `none` and the same default of `500`.
* `time.sleep` and the `logger` calls are recorded as a pure `Event` trace;
  log-message interpolation of runtime values is dropped, the level and the
  call site text are kept.
* The Python `while retries < max_retries` loop is run on explicit fuel
  `max_retries - retries`; the loop body's `retries >= max_retries`
  re-raise test is exactly `fuel = 0` under that change of variable.
* The remote platform (python-gitlab transport) is an external collaborator;
  client methods are parametrised by an `Api σ` record of its responses, and
  a project is addressed implicitly by the state `σ` (the `project_id`
  argument of the source only selects which project the calls touch, it has
  no other semantic weight).
-/

deriving instance DecidableEq for Except

/-- The exception class of a fault, as far as the source dispatches on it:
`GitlabGetError`, `GitlabCreateError`, or any other `GitlabError`. -/
inductive FaultKind where
  | getError
  | createError
  | otherError
deriving DecidableEq, Repr

/-- A `GitlabError` as observed by `_with_retries`: its class, its
`response_code` attribute (`none` = attribute absent), and `str(e)`. -/
structure Fault where
  kind : FaultKind
  response_code : Option Nat
  message : String
deriving DecidableEq, Repr

/-- `getattr(e, 'response_code', 500)` (client.py line 243). -/
def Fault.statusCode (e : Fault) : Nat :=
  e.response_code.getD 500

inductive LogLevel where
  | debug
  | info
  | warning
  | error
deriving DecidableEq, Repr

/-- An observable side effect of the executor: a `time.sleep(d)` or a
logger call (level plus call-site text, interpolated values dropped). -/
inductive Event where
  | sleep (duration : Nat)
  | log (level : LogLevel) (msg : String)
deriving DecidableEq, Repr

/-- The sleep durations of a trace, in order. -/
def sleeps (tr : List Event) : List Nat :=
  tr.filterMap fun e =>
    match e with
    | .sleep d => some d
    | .log _ _ => none

/-- How a `_with_retries` call terminates: the operation's return value, a
re-raised operation fault, or the fall-through
`raise GitlabError("Max retries exceeded")` after the loop. -/
inductive RunResult (α : Type) where
  | ok : α → RunResult α
  | fault : Fault → RunResult α
  | maxRetriesExceeded : RunResult α
deriving DecidableEq, Repr

/-- The terminal raise seen by a caller: the fall-through case raises a
fresh generic `GitlabError("Max retries exceeded")`. -/
def RunResult.toExcept : RunResult α → Except Fault α
  | .ok v => .ok v
  | .fault e => .error e
  | .maxRetriesExceeded => .error ⟨FaultKind.otherError, none, "Max retries exceeded"⟩

/-- One invocation of the wrapped operation is its scripted outcome at the
given invocation index (the Python closure may behave differently on each
call, e.g. two faults then success). -/
structure ExecResult (α : Type) where
  result : RunResult α
  invocations : Nat
  trace : List Event
deriving DecidableEq, Repr

/-- The loop of `_with_retries` (client.py lines 238-276), on explicit fuel
`max_retries - retries`.  `retries` is the Python counter (it is the
exponent source for the backoff: after the increment the sleep is
`retry_delay * 2 ** (retries' - 1)`, i.e. `retryDelay * 2 ^ retries` for the
pre-increment value), `inv` counts invocations of the operation so far and
indexes its script, `trace` accumulates sleeps and log lines in order. -/
def runLoop (op : Nat → Except Fault α) (retryDelay : Nat) :
    Nat → Nat → Nat → List Event → ExecResult α
  | 0, _retries, inv, trace =>
      -- `while retries < max_retries` is false: fall through to line 275
      ⟨.maxRetriesExceeded, inv, trace ++ [.log .error "Max retries exceeded for all error types"]⟩
  | fuel + 1, retries, inv, trace =>
      match op inv with
      | .ok v => ⟨.ok v, inv + 1, trace⟩
      | .error e =>
        let status := e.statusCode
        if 500 ≤ status ∧ status < 600 then
          -- server error: retry with exponential backoff
          if fuel = 0 then
            ⟨.fault e, inv + 1, trace ++ [.log .error "Max retries reached for server error"]⟩
          else
            runLoop op retryDelay fuel (retries + 1) (inv + 1)
              (trace ++ [.log .warning "Server error, retrying", .sleep (retryDelay * 2 ^ retries)])
        else if 400 ≤ status ∧ status < 500 then
          -- client error: never retried; 409 logged at debug, others at info
          if status = 409 then
            ⟨.fault e, inv + 1, trace ++ [.log .debug "client error detected, not retrying"]⟩
          else
            ⟨.fault e, inv + 1, trace ++ [.log .info "client error detected, not retrying"]⟩
        else
          -- other errors: normal retry logic with fixed delay
          if fuel = 0 then
            ⟨.fault e, inv + 1, trace ++ [.log .error "Max retries reached for non-server error"]⟩
          else
            runLoop op retryDelay fuel (retries + 1) (inv + 1)
              (trace ++ [.log .warning "Non-server error, retrying", .sleep retryDelay])

/-- `GitLabClient._with_retries`: run the scripted operation with the given
retry budget and base delay. -/
def with_retries (op : Nat → Except Fault α) (maxRetries retryDelay : Nat) : ExecResult α :=
  runLoop op retryDelay maxRetries 0 0 []

/-- Substring test on explicit character lists (executable form of
Python's `needle in hay`). -/
def containsSubList (needle : List Char) : List Char → Bool
  | [] => needle.isEmpty
  | c :: rest => needle.isPrefixOf (c :: rest) || containsSubList needle rest

/-- Python's `needle in hay` on strings. -/
def strContainsSub (hay needle : String) : Bool :=
  containsSubList needle.toList hay.toList

/-- The remote platform capability set consumed by the client, as response
functions over an abstract remote state `σ`; reads leave the state alone,
creates return the possibly-updated state alongside their outcome. -/
structure Api (σ : Type) where
  getBranch : σ → String → Except Fault Unit
  createBranch : σ → String → String → Except Fault Unit × σ
  listProtected : σ → Except Fault (List String)
  createProtected : σ → String → Nat → Nat → Nat → Bool → Bool → Except Fault Unit × σ
  listRules : σ → Except Fault (List String)
  createRule : σ → String → Nat → Except Fault Unit × σ

/-- `GitLabClient`: the transport plus the retry tunables read at
construction (`MAX_RETRIES` default 3, `RETRY_DELAY` default 1). -/
structure GitLabClient (σ : Type) where
  api : Api σ
  max_retries : Nat := 3
  retry_delay : Nat := 1

/-- An API call site issued by a client method, recorded so that theorems
can speak about which remote calls a reconciliation method performed. -/
inductive CAction where
  | readBranch (name : String)
  | createBranchCall (name ref : String)
  | readProtected
  | createProtectedCall (name : String)
  | readRules
  | createRuleCall (name : String)
deriving DecidableEq, Repr

/-- The `{"status": ..., "message": ...}` dictionaries the reconciliation
methods return. -/
structure StatusDict where
  status : String
  message : String
deriving DecidableEq, Repr

/-- `self._with_retries(lambda: ...)` around a single remote call: the
closure's outcome is stable across re-invocations within one call, so the
executor runs on the constant script and the raise surfaces via
`RunResult.toExcept`. -/
def GitLabClient.callWithRetries (c : GitLabClient σ) (res : Except Fault α) :
    Except Fault α :=
  (with_retries (fun _ => res) c.max_retries c.retry_delay).result.toExcept

/-- `GitLabClient.branch_exists` (client.py lines 67-83): probe the branch
through the executor; only a `GitlabGetError` is caught and mapped to
`false`, any other fault propagates. -/
def GitLabClient.branch_exists (c : GitLabClient σ) (s : σ) (branch_name : String) :
    Except Fault Bool :=
  match c.callWithRetries (c.api.getBranch s branch_name) with
  | .ok _ => .ok true
  | .error e => if e.kind = FaultKind.getError then .ok false else .error e

/-- `GitLabClient.create_branch` (client.py lines 85-110): re-check
existence, attempt creation, and map a `GitlabCreateError` whose message
contains "already exists" to the already-exists outcome. -/
def GitLabClient.create_branch (c : GitLabClient σ) (s : σ) (branch_name ref : String) :
    Except Fault StatusDict × σ × List CAction :=
  let tryBody : Except Fault StatusDict × σ × List CAction :=
    match c.branch_exists s branch_name with
    | .error e => (.error e, s, [CAction.readBranch branch_name])
    | .ok true =>
        (.ok ⟨"already_exists", "Branch already exists"⟩, s, [CAction.readBranch branch_name])
    | .ok false =>
        let p := c.api.createBranch s branch_name ref
        let acts := [CAction.readBranch branch_name, CAction.createBranchCall branch_name ref]
        match c.callWithRetries p.1 with
        | .ok _ => (.ok ⟨"created", "Branch created successfully"⟩, p.2, acts)
        | .error e => (.error e, p.2, acts)
  match tryBody with
  | (.error e, s1, acts) =>
      -- except gitlab.exceptions.GitlabCreateError as e
      if e.kind = FaultKind.createError then
        if strContainsSub e.message "already exists" then
          (.ok ⟨"already_exists", "Branch already exists"⟩, s1, acts)
        else
          (.ok ⟨"error", e.message⟩, s1, acts)
      else (.error e, s1, acts)
  | done => done

/-- `GitLabClient.is_branch_protected` (client.py lines 112-125): list the
protection rules through the executor and compare names exactly; faults
propagate. -/
def GitLabClient.is_branch_protected (c : GitLabClient σ) (s : σ) (branch_name : String) :
    Except Fault Bool :=
  match c.callWithRetries (c.api.listProtected s) with
  | .ok names => .ok (names.any fun n => n == branch_name)
  | .error e => .error e

/-- `GitLabClient.protect_branch` (client.py lines 127-167): pre-check only
when `wildcard` is false (the `not wildcard and ...` conjunction
short-circuits past the read), attempt creation, and map a
`GitlabCreateError` whose message contains "already been protected" to the
already-protected outcome. -/
def GitLabClient.protect_branch (c : GitLabClient σ) (s : σ) (branch_name : String)
    (push_access_level merge_access_level unprotect_access_level : Nat)
    (allow_force_push code_owner_approval_required wildcard : Bool) :
    Except Fault StatusDict × σ × List CAction :=
  let tryBody : Except Fault StatusDict × σ × List CAction :=
    let pre : Except Fault Bool × List CAction :=
      if wildcard then (.ok false, [])
      else (c.is_branch_protected s branch_name, [CAction.readProtected])
    match pre with
    | (.error e, acts) => (.error e, s, acts)
    | (.ok true, acts) =>
        (.ok ⟨"already_protected", "Branch is already protected"⟩, s, acts)
    | (.ok false, acts) =>
        let p := c.api.createProtected s branch_name push_access_level merge_access_level
          unprotect_access_level allow_force_push code_owner_approval_required
        let acts1 := acts ++ [CAction.createProtectedCall branch_name]
        match c.callWithRetries p.1 with
        | .ok _ => (.ok ⟨"protected", "Branch protected successfully"⟩, p.2, acts1)
        | .error e => (.error e, p.2, acts1)
  match tryBody with
  | (.error e, s1, acts) =>
      if e.kind = FaultKind.createError then
        if strContainsSub e.message "already been protected" then
          (.ok ⟨"already_protected", "Branch is already protected"⟩, s1, acts)
        else
          (.ok ⟨"error", e.message⟩, s1, acts)
      else (.error e, s1, acts)
  | done => done

/-- `GitLabClient.approval_rule_exists` (client.py lines 169-182): list the
approval rules through the executor and compare rule names exactly — the
check is not scoped by branch; faults propagate. -/
def GitLabClient.approval_rule_exists (c : GitLabClient σ) (s : σ) (rule_name : String) :
    Except Fault Bool :=
  match c.callWithRetries (c.api.listRules s) with
  | .ok names => .ok (names.any fun n => n == rule_name)
  | .error e => .error e

/-- `GitLabClient.add_approval_rule` (client.py lines 184-216): pre-check by
rule name only, attempt creation, and map a `GitlabCreateError` whose
message contains "has already been taken" to the already-exists outcome.
`branch_name` only appears interpolated in the display messages. -/
def GitLabClient.add_approval_rule (c : GitLabClient σ) (s : σ) (branch_name : String)
    (group_id : Nat) (rule_name : String) :
    Except Fault StatusDict × σ × List CAction :=
  let tryBody : Except Fault StatusDict × σ × List CAction :=
    match c.approval_rule_exists s rule_name with
    | .error e => (.error e, s, [CAction.readRules])
    | .ok true =>
        (.ok ⟨"already_exists",
              "Approval rule already exists for '" ++ branch_name ++ "'"⟩,
         s, [CAction.readRules])
    | .ok false =>
        let p := c.api.createRule s rule_name group_id
        let acts := [CAction.readRules, CAction.createRuleCall rule_name]
        match c.callWithRetries p.1 with
        | .ok _ =>
            (.ok ⟨"created", "Approval rule added for '" ++ branch_name ++ "'"⟩,
             p.2, acts)
        | .error e => (.error e, p.2, acts)
  match tryBody with
  | (.error e, s1, acts) =>
      if e.kind = FaultKind.createError then
        if strContainsSub e.message "has already been taken" then
          (.ok ⟨"already_exists",
                "Approval rule already exists for '" ++ branch_name ++ "'"⟩,
           s1, acts)
        else
          (.ok ⟨"error", e.message⟩, s1, acts)
      else (.error e, s1, acts)
  | done => done

/-- Module-level `branch_exists` (branches.py lines 6-25): the `except
Exception` clause degrades every propagated fault to `False` with one
error-level log line; the not-found case is already `False` with no log. -/
def Branches.branch_exists (c : GitLabClient σ) (s : σ) (branch_name : String) :
    Bool × List Event :=
  match GitLabClient.branch_exists c s branch_name with
  | .ok b => (b, [])
  | .error _ => (false, [.log .error "Error checking if branch exists"])

/-- Name lookup used by the modelled remote: does the list hold the name. -/
def hasName (l : List String) (name : String) : Bool :=
  l.any fun n => n == name

/-- A project's remote state: its branch names, its protected-branch rule
names, and its approval-rule names. -/
structure Remote where
  branches : List String
  protectedNames : List String
  ruleNames : List String
deriving DecidableEq, Repr

/-- Modelled from the spec: the remote platform API transport is an
external collaborator (spec section 6 lists its capability set, section 8's
end-to-end scenario fixes how it rejects duplicates, and section 9 names
the literal message substrings the client matches on).  Listing returns the
current rule names; getting an absent branch raises a not-found
`GitlabGetError` with status 404; creating a resource whose name is already
present raises a `GitlabCreateError` whose message carries the platform's
already-exists wording ("Branch already exists" / "Protected branch has
already been protected" / "Name has already been taken"); creating an
absent resource succeeds and adds the name.  Validity of `ref` and access
levels is not modelled (the spec leaves their failure modes to the
platform). -/
def gitlabApi : Api Remote where
  getBranch := fun r name =>
    if hasName r.branches name then .ok ()
    else .error ⟨FaultKind.getError, some 404, "404 Branch Not Found"⟩
  createBranch := fun r name _ref =>
    if hasName r.branches name then
      (.error ⟨FaultKind.createError, some 400, "Branch already exists"⟩, r)
    else
      (.ok (), { r with branches := name :: r.branches })
  listProtected := fun r => .ok r.protectedNames
  createProtected := fun r name _ _ _ _ _ =>
    if hasName r.protectedNames name then
      (.error ⟨FaultKind.createError, some 409, "Protected branch has already been protected"⟩, r)
    else
      (.ok (), { r with protectedNames := name :: r.protectedNames })
  listRules := fun r => .ok r.ruleNames
  createRule := fun r name _gid =>
    if hasName r.ruleNames name then
      (.error ⟨FaultKind.createError, some 400, "Name has already been taken"⟩, r)
    else
      (.ok (), { r with ruleNames := name :: r.ruleNames })

/-- The client at its construction-time defaults (`MAX_RETRIES` 3,
`RETRY_DELAY` 1) over the modelled remote. -/
def glClient : GitLabClient Remote :=
  { api := gitlabApi, max_retries := 3, retry_delay := 1 }

/-! ## Executor lemmas -/

/-- An operation that succeeds at the first invocation returns at once:
no retry, no sleep, no log. -/
theorem with_retries_ok_first (op : Nat → Except Fault α) (v : α)
    (maxRetries retryDelay : Nat) (h0 : op 0 = .ok v) (hmr : 1 ≤ maxRetries) :
    with_retries op maxRetries retryDelay = ⟨.ok v, 1, []⟩ := by
  obtain ⟨m, rfl⟩ : ∃ m, maxRetries = m + 1 := ⟨maxRetries - 1, by omega⟩
  simp [with_retries, runLoop, h0]

/-- An operation whose outcome is one fixed fault surfaces exactly that
fault, for every retry budget of at least one attempt and every fault
class. -/
theorem runLoop_const_error {α : Type} (e : Fault) (d : Nat) :
    ∀ fuel retries inv trace, 1 ≤ fuel →
      (runLoop (α := α) (fun _ => Except.error e) d fuel retries inv trace).result = .fault e := by
  intro fuel
  induction fuel with
  | zero => intro retries inv trace h; omega
  | succ f ih =>
      intro retries inv trace _
      by_cases h5 : 500 ≤ e.statusCode ∧ e.statusCode < 600
      · by_cases hf : f = 0
        · simp [runLoop, h5, hf]
        · simp only [runLoop, h5, if_true, if_pos, hf, if_false, if_neg]
          exact ih (retries + 1) (inv + 1) _ (by omega)
      · by_cases h4 : 400 ≤ e.statusCode ∧ e.statusCode < 500
        · by_cases h409 : e.statusCode = 409 <;> simp [runLoop, h5, h4, h409]
        · by_cases hf : f = 0
          · simp [runLoop, h5, h4, hf]
          · simp only [runLoop, h5, h4, hf, if_false, if_neg]
            exact ih (retries + 1) (inv + 1) _ (by omega)

/-- A single remote call through the executor surfaces its own outcome
unchanged whenever at least one attempt is allowed. -/
theorem callWithRetries_id (c : GitLabClient σ) (res : Except Fault α)
    (hmr : 1 ≤ c.max_retries) : c.callWithRetries res = res := by
  cases res with
  | ok v =>
      rw [GitLabClient.callWithRetries, with_retries_ok_first _ v _ _ rfl hmr]
      rfl
  | error e =>
      rw [GitLabClient.callWithRetries, with_retries,
        runLoop_const_error e _ _ _ _ _ hmr]
      rfl

/-! ## C1 -/

/-- C1: for a scripted operation that raises a 5xx fault on its first two
invocations and succeeds on the third, with `max_retries >= 3`, the
executor returns the third invocation's value, invokes the operation
exactly three times, and sleeps exactly twice with deterministic
exponential delays `base` and `base * 2`. -/
theorem C1_retry_backoff {α : Type} (op : Nat → Except Fault α) (f0 f1 : Fault) (v : α)
    (base mr : Nat)
    (h0 : op 0 = .error f0) (h1 : op 1 = .error f1) (h2 : op 2 = .ok v)
    (c0 : 500 ≤ f0.statusCode) (c0' : f0.statusCode < 600)
    (c1 : 500 ≤ f1.statusCode) (c1' : f1.statusCode < 600)
    (hmr : 3 ≤ mr) :
    (with_retries op mr base).result = .ok v ∧
    (with_retries op mr base).invocations = 3 ∧
    sleeps (with_retries op mr base).trace = [base, base * 2] := by
  obtain ⟨k, rfl⟩ : ∃ k, mr = k + 1 + 1 + 1 := ⟨mr - 3, by omega⟩
  simp [with_retries, runLoop, h0, h1, h2, c0, c0', c1, c1', sleeps]

/-- Witness for C1 at a concrete script: faults 500 then 503, success 42,
budget 3, base delay 7. -/
theorem C1_retry_backoff_witness :
    (with_retries (fun n =>
        if n = 0 then .error ⟨FaultKind.otherError, some 500, "boom"⟩
        else if n = 1 then .error ⟨FaultKind.otherError, some 503, "unavailable"⟩
        else (.ok 42 : Except Fault Nat)) 3 7).result = .ok 42 ∧
    (with_retries (fun n =>
        if n = 0 then .error ⟨FaultKind.otherError, some 500, "boom"⟩
        else if n = 1 then .error ⟨FaultKind.otherError, some 503, "unavailable"⟩
        else (.ok 42 : Except Fault Nat)) 3 7).invocations = 3 ∧
    sleeps (with_retries (fun n =>
        if n = 0 then .error ⟨FaultKind.otherError, some 500, "boom"⟩
        else if n = 1 then .error ⟨FaultKind.otherError, some 503, "unavailable"⟩
        else (.ok 42 : Except Fault Nat)) 3 7).trace = [7, 7 * 2] :=
  C1_retry_backoff _ _ _ 42 7 3 rfl rfl rfl (by decide) (by decide) (by decide)
    (by decide) (by decide)

/-! ## C2 -/

/-- C2: a fault classified in [400, 500) is re-raised immediately on first
occurrence — one invocation, no sleep, no retry — and the single log line
is at debug level exactly when the status is 409, else at info level. -/
theorem C2_client_fault_fail_fast {α : Type} (op : Nat → Except Fault α) (f : Fault)
    (mr d : Nat)
    (h0 : op 0 = .error f) (h4 : 400 ≤ f.statusCode) (h5 : f.statusCode < 500)
    (hmr : 1 ≤ mr) :
    (with_retries op mr d).result = .fault f ∧
    (with_retries op mr d).invocations = 1 ∧
    sleeps (with_retries op mr d).trace = [] ∧
    (with_retries op mr d).trace =
      [.log (if f.statusCode = 409 then .debug else .info)
        "client error detected, not retrying"] := by
  obtain ⟨k, rfl⟩ : ∃ k, mr = k + 1 := ⟨mr - 1, by omega⟩
  have hns : ¬ (500 ≤ f.statusCode ∧ f.statusCode < 600) := by omega
  by_cases h409 : f.statusCode = 409 <;>
    simp [with_retries, runLoop, h0, hns, h4, h5, h409, sleeps]

/-- Witness for C2 at a concrete 409 conflict fault. -/
theorem C2_client_fault_fail_fast_witness :
    (with_retries (fun _ =>
        (.error ⟨FaultKind.createError, some 409, "conflict"⟩ : Except Fault Nat)) 3 1).result
      = .fault ⟨FaultKind.createError, some 409, "conflict"⟩ ∧
    (with_retries (fun _ =>
        (.error ⟨FaultKind.createError, some 409, "conflict"⟩ : Except Fault Nat)) 3 1).invocations = 1 ∧
    sleeps (with_retries (fun _ =>
        (.error ⟨FaultKind.createError, some 409, "conflict"⟩ : Except Fault Nat)) 3 1).trace = [] ∧
    (with_retries (fun _ =>
        (.error ⟨FaultKind.createError, some 409, "conflict"⟩ : Except Fault Nat)) 3 1).trace =
      [.log (if (Fault.statusCode ⟨FaultKind.createError, some 409, "conflict"⟩) = 409
          then .debug else .info) "client error detected, not retrying"] :=
  C2_client_fault_fail_fast _ _ 3 1 rfl (by decide) (by decide) (by decide)

/-! ## C3 -/

/-- C3: with `max_retries = 3` and a retryable (non-4xx) fault on every
invocation, the executor invokes the operation exactly three times and
surfaces the fault of the third invocation itself, not a substitute. -/
theorem C3_retry_exhaustion {α : Type} (op : Nat → Except Fault α) (f0 f1 f2 : Fault)
    (d : Nat)
    (h0 : op 0 = .error f0) (h1 : op 1 = .error f1) (h2 : op 2 = .error f2)
    (r0 : ¬ (400 ≤ f0.statusCode ∧ f0.statusCode < 500))
    (r1 : ¬ (400 ≤ f1.statusCode ∧ f1.statusCode < 500))
    (r2 : ¬ (400 ≤ f2.statusCode ∧ f2.statusCode < 500)) :
    (with_retries op 3 d).result = .fault f2 ∧
    (with_retries op 3 d).invocations = 3 := by
  have key : with_retries op 3 d = runLoop op d (0 + 1 + 1 + 1) 0 0 [] := rfl
  rw [key]
  by_cases s0 : 500 ≤ f0.statusCode ∧ f0.statusCode < 600 <;>
  by_cases s1 : 500 ≤ f1.statusCode ∧ f1.statusCode < 600 <;>
  by_cases s2 : 500 ≤ f2.statusCode ∧ f2.statusCode < 600 <;>
    simp [runLoop, h0, h1, h2, s0, s1, s2, r0, r1, r2]

/-- Witness for C3: three distinct server faults; the third one surfaces. -/
theorem C3_retry_exhaustion_witness :
    (with_retries (fun n =>
        (.error ⟨FaultKind.otherError, some (500 + n), "server fault"⟩ : Except Fault Nat)) 3 1).result
      = .fault ⟨FaultKind.otherError, some 502, "server fault"⟩ ∧
    (with_retries (fun n =>
        (.error ⟨FaultKind.otherError, some (500 + n), "server fault"⟩ : Except Fault Nat)) 3 1).invocations = 3 :=
  C3_retry_exhaustion _ _ _ _ 1 rfl rfl rfl (by decide) (by decide) (by decide)

/-! ## C4 -/

/-- C4 counterexample: a fault carrying no HTTP status code is defaulted to
500 by `getattr(e, 'response_code', 500)` and follows exponential — not
fixed — backoff: with budget 3 and base delay 1 the executor sleeps
`[1, 2]`, not `[1, 1]` as the claim's fixed-delay reading requires. -/
theorem C4_counterexample :
    sleeps (with_retries (fun _ =>
        (.error ⟨FaultKind.otherError, none, "network timeout"⟩ : Except Fault Nat)) 3 1).trace
      = [1, 2] ∧
    [1, 2] ≠ ([1, 1] : List Nat) := by
  constructor
  · rfl
  · decide

/-- C4 amended: a fault whose classified status code (absent codes default
to 500) lies outside both [400, 500) and [500, 600) is retried with fixed
delay `base_delay` before each retry, under the same `max_retries = 3`
budget: regardless of the third invocation's outcome the executor sleeps
`[d, d]` and invokes the operation three times. -/
theorem C4_amended_fixed_delay {α : Type} (op : Nat → Except Fault α) (f0 f1 : Fault)
    (d : Nat)
    (h0 : op 0 = .error f0) (h1 : op 1 = .error f1)
    (u0 : f0.statusCode < 400 ∨ 600 ≤ f0.statusCode)
    (u1 : f1.statusCode < 400 ∨ 600 ≤ f1.statusCode) :
    sleeps (with_retries op 3 d).trace = [d, d] ∧
    (with_retries op 3 d).invocations = 3 := by
  have key : with_retries op 3 d = runLoop op d (0 + 1 + 1 + 1) 0 0 [] := rfl
  rw [key]
  have s0 : ¬ (500 ≤ f0.statusCode ∧ f0.statusCode < 600) := by omega
  have c0 : ¬ (400 ≤ f0.statusCode ∧ f0.statusCode < 500) := by omega
  have s1 : ¬ (500 ≤ f1.statusCode ∧ f1.statusCode < 600) := by omega
  have c1 : ¬ (400 ≤ f1.statusCode ∧ f1.statusCode < 500) := by omega
  cases h2 : op 2 with
  | ok v => simp [runLoop, h0, h1, h2, s0, c0, s1, c1, sleeps]
  | error e =>
      by_cases s2 : 500 ≤ e.statusCode ∧ e.statusCode < 600 <;>
      by_cases c2 : 400 ≤ e.statusCode ∧ e.statusCode < 500 <;>
      by_cases h409 : e.statusCode = 409 <;>
        simp [runLoop, h0, h1, h2, s0, c0, s1, c1, s2, c2, h409, sleeps]

/-- Witness for C4 amended: faults with out-of-range codes 302 and 700,
base delay 5. -/
theorem C4_amended_fixed_delay_witness :
    sleeps (with_retries (fun n =>
        if n = 0 then .error ⟨FaultKind.otherError, some 302, "redirect"⟩
        else (.error ⟨FaultKind.otherError, some 700, "strange"⟩ : Except Fault Nat)) 3 5).trace
      = [5, 5] ∧
    (with_retries (fun n =>
        if n = 0 then .error ⟨FaultKind.otherError, some 302, "redirect"⟩
        else (.error ⟨FaultKind.otherError, some 700, "strange"⟩ : Except Fault Nat)) 3 5).invocations = 3 :=
  C4_amended_fixed_delay _ _ _ 5 rfl rfl (by decide) (by decide)

/-! ## C10 -/

/-- No run of the loop with at least one attempt of fuel ever falls
through to the generic terminal raise. -/
theorem runLoop_ne_exceeded {α : Type} (op : Nat → Except Fault α) (d : Nat) :
    ∀ fuel retries inv trace, 1 ≤ fuel →
      (runLoop op d fuel retries inv trace).result ≠ RunResult.maxRetriesExceeded := by
  intro fuel
  induction fuel with
  | zero => intro _ _ _ h; omega
  | succ f ih =>
      intro retries inv trace _
      cases hop : op inv with
      | ok v => simp [runLoop, hop]
      | error e =>
          by_cases s : 500 ≤ e.statusCode ∧ e.statusCode < 600
          · by_cases hf : f = 0
            · simp [runLoop, hop, s, hf]
            · simp only [runLoop, hop, s, hf, if_true, if_false, if_pos, if_neg,
                ite_true, ite_false]
              exact ih (retries + 1) (inv + 1) _ (by omega)
          · by_cases c : 400 ≤ e.statusCode ∧ e.statusCode < 500
            · by_cases h409 : e.statusCode = 409 <;> simp [runLoop, hop, s, c, h409]
            · by_cases hf : f = 0
              · simp [runLoop, hop, s, c, hf]
              · simp only [runLoop, hop, s, c, hf, if_true, if_false, if_pos, if_neg,
                  ite_true, ite_false]
                exact ih (retries + 1) (inv + 1) _ (by omega)

/-- C10: for `max_retries >= 1` the fall-through raise of the generic
"Max retries exceeded" fault after the loop is unreachable; for
`max_retries = 0` the loop body never runs, the operation is never invoked,
and the executor raises exactly that generic fault. -/
theorem C10_fallthrough_reachability {α : Type} (op : Nat → Except Fault α) (mr d : Nat) :
    (1 ≤ mr → (with_retries op mr d).result ≠ RunResult.maxRetriesExceeded) ∧
    (with_retries op 0 d
      = ⟨.maxRetriesExceeded, 0, [.log .error "Max retries exceeded for all error types"]⟩) ∧
    (with_retries op 0 d).result.toExcept
      = .error ⟨FaultKind.otherError, none, "Max retries exceeded"⟩ := by
  exact ⟨fun h => runLoop_ne_exceeded op d mr 0 0 [] h, rfl, rfl⟩

/-- Witness for C10 at a concrete operation and budget 1. -/
theorem C10_fallthrough_reachability_witness :
    (with_retries (fun _ => (.ok 0 : Except Fault Nat)) 1 1).result
      ≠ RunResult.maxRetriesExceeded :=
  (C10_fallthrough_reachability (fun _ => (.ok 0 : Except Fault Nat)) 1 1).1 (by decide)

/-! ## C5 -/

/-- C5: `create_branch` outcome protocol.  (1) A positive existence
re-check returns the already-exists outcome with no creation attempted;
otherwise creation is attempted and (2) success yields Created, (3) a
creation fault whose message contains "already exists" yields the
already-exists outcome, (4) any other creation fault yields the Failed
outcome carrying that fault's message. -/
theorem C5_create_branch_protocol {σ : Type} (c : GitLabClient σ) (s : σ)
    (name ref : String) (hmr : 1 ≤ c.max_retries) :
    (c.branch_exists s name = .ok true →
       c.create_branch s name ref
         = (.ok ⟨"already_exists", "Branch already exists"⟩, s, [CAction.readBranch name]))
  ∧ (c.branch_exists s name = .ok false →
      ((c.api.createBranch s name ref).1 = .ok () →
        c.create_branch s name ref
          = (.ok ⟨"created", "Branch created successfully"⟩,
             (c.api.createBranch s name ref).2,
             [CAction.readBranch name, CAction.createBranchCall name ref]))
      ∧ ∀ e, (c.api.createBranch s name ref).1 = .error e →
          e.kind = FaultKind.createError →
          (strContainsSub e.message "already exists" = true →
            c.create_branch s name ref
              = (.ok ⟨"already_exists", "Branch already exists"⟩,
                 (c.api.createBranch s name ref).2,
                 [CAction.readBranch name, CAction.createBranchCall name ref]))
          ∧ (strContainsSub e.message "already exists" = false →
            c.create_branch s name ref
              = (.ok ⟨"error", e.message⟩,
                 (c.api.createBranch s name ref).2,
                 [CAction.readBranch name, CAction.createBranchCall name ref]))) := by
  refine ⟨fun hex => ?_, fun hex =>
    ⟨fun hcr => ?_, fun e hcr hk => ⟨fun hsub => ?_, fun hsub => ?_⟩⟩⟩
  · simp [GitLabClient.create_branch, hex]
  · simp [GitLabClient.create_branch, hex, hcr, callWithRetries_id, hmr]
  · simp [GitLabClient.create_branch, hex, hcr, hk, hsub, callWithRetries_id, hmr]
  · simp [GitLabClient.create_branch, hex, hcr, hk, hsub, callWithRetries_id, hmr]

/-- Witness for C5: on an empty project the creation path runs and yields
the Created outcome with both remote calls issued. -/
theorem C5_create_branch_protocol_witness :
    glClient.create_branch ⟨["main"], [], []⟩ "develop" "main"
      = (.ok ⟨"created", "Branch created successfully"⟩,
         ⟨["develop", "main"], [], []⟩,
         [CAction.readBranch "develop", CAction.createBranchCall "develop" "main"]) :=
  ((C5_create_branch_protocol glClient ⟨["main"], [], []⟩ "develop" "main"
      (by decide)).2 (by decide)).1 (by decide)

/-! ## C6 -/

/-- C6: `protect_branch` performs the existence pre-check exactly when the
wildcard flag is false.  With `wildcard = true` the creation call is issued
unconditionally and the call trace holds no pre-check read; with
`wildcard = false` the first remote call is the pre-check read, and a
positive pre-check returns AlreadyProtected without any creation call. -/
theorem C6_protect_branch_wildcard {σ : Type} (c : GitLabClient σ) (s : σ)
    (name : String) (pl ml ul : Nat) (afp coar : Bool) :
    ((c.protect_branch s name pl ml ul afp coar true).2.2
        = [CAction.createProtectedCall name])
  ∧ ((c.protect_branch s name pl ml ul afp coar false).2.2.head?
        = some CAction.readProtected)
  ∧ (c.is_branch_protected s name = .ok true →
      c.protect_branch s name pl ml ul afp coar false
        = (.ok ⟨"already_protected", "Branch is already protected"⟩, s,
           [CAction.readProtected])) := by
  refine ⟨?_, ?_, fun hpre => ?_⟩
  · cases hcw : c.callWithRetries (c.api.createProtected s name pl ml ul afp coar).1 with
    | ok u => simp [GitLabClient.protect_branch, hcw]
    | error e =>
        by_cases hk : e.kind = FaultKind.createError
        · by_cases hsub : strContainsSub e.message "already been protected" = true <;>
            simp [GitLabClient.protect_branch, hcw, hk, hsub]
        · simp [GitLabClient.protect_branch, hcw, hk]
  · cases hp : c.is_branch_protected s name with
    | ok b =>
        cases b with
        | true => simp [GitLabClient.protect_branch, hp]
        | false =>
            cases hcw : c.callWithRetries (c.api.createProtected s name pl ml ul afp coar).1 with
            | ok u => simp [GitLabClient.protect_branch, hp, hcw]
            | error e =>
                by_cases hk : e.kind = FaultKind.createError
                · by_cases hsub : strContainsSub e.message "already been protected" = true <;>
                    simp [GitLabClient.protect_branch, hp, hcw, hk, hsub]
                · simp [GitLabClient.protect_branch, hp, hcw, hk]
    | error e =>
        by_cases hk : e.kind = FaultKind.createError
        · by_cases hsub : strContainsSub e.message "already been protected" = true <;>
            simp [GitLabClient.protect_branch, hp, hk, hsub]
        · simp [GitLabClient.protect_branch, hp, hk]
  · simp [GitLabClient.protect_branch, hpre]

/-- Witness for C6: on a project whose "main" is already protected, the
non-wildcard call short-circuits to AlreadyProtected after its pre-check,
and the wildcard call's trace is exactly the creation call. -/
theorem C6_protect_branch_wildcard_witness :
    glClient.protect_branch ⟨[], ["main"], []⟩ "main" 40 40 40 false false false
      = (.ok ⟨"already_protected", "Branch is already protected"⟩,
         ⟨[], ["main"], []⟩, [CAction.readProtected]) ∧
    (glClient.protect_branch ⟨[], ["main"], []⟩ "main" 40 40 40 false false true).2.2
      = [CAction.createProtectedCall "main"] :=
  ⟨(C6_protect_branch_wildcard glClient ⟨[], ["main"], []⟩ "main" 40 40 40
      false false).2.2 (by decide),
   (C6_protect_branch_wildcard glClient ⟨[], ["main"], []⟩ "main" 40 40 40
      false false).1⟩

/-! ## C8 -/

/-- C8: the module-level existence probe degrades every probing fault to
`false` rather than propagating it: any fault of the remote branch read
yields the result `false` (the not-found class silently, through the
client's own catch), and a fault class that escapes the client layer —
including the executor's generic exhaustion fault — is caught by the
module's catch-all with one error-level log line. -/
theorem C8_probe_never_propagates {σ : Type} (c : GitLabClient σ) (s : σ)
    (name : String) (hmr : 1 ≤ c.max_retries) :
    (∀ f, c.api.getBranch s name = .error f →
      (Branches.branch_exists c s name).1 = false)
  ∧ (∀ f, c.api.getBranch s name = .error f → f.kind ≠ FaultKind.getError →
      Branches.branch_exists c s name
        = (false, [Event.log .error "Error checking if branch exists"])) := by
  constructor
  · intro f hf
    by_cases hk : f.kind = FaultKind.getError <;>
      simp [Branches.branch_exists, GitLabClient.branch_exists, hf, hk,
        callWithRetries_id, hmr]
  · intro f hf hk
    simp [Branches.branch_exists, GitLabClient.branch_exists, hf, hk,
      callWithRetries_id, hmr]

/-- A transport whose branch probe always raises a plain 500 fault that is
not a `GitlabGetError`; its create and list capabilities are inert. -/
def apiFail : Api Unit where
  getBranch := fun _ _ => .error ⟨FaultKind.otherError, some 500, "transient"⟩
  createBranch := fun s _ _ => (.ok (), s)
  listProtected := fun _ => .ok []
  createProtected := fun s _ _ _ _ _ _ => (.ok (), s)
  listRules := fun _ => .ok []
  createRule := fun s _ _ => (.ok (), s)

/-- Witness for C8 on a transport whose probe faults with a plain 500
server fault on every attempt (so the fault surfaces only after the
executor exhausts its retries). -/
theorem C8_probe_never_propagates_witness :
    (Branches.branch_exists ⟨apiFail, 3, 1⟩ () "develop").1 = false ∧
    Branches.branch_exists ⟨apiFail, 3, 1⟩ () "develop"
      = (false, [Event.log .error "Error checking if branch exists"]) :=
  ⟨(C8_probe_never_propagates ⟨apiFail, 3, 1⟩ () "develop" (by decide)).1 _ rfl,
   (C8_probe_never_propagates ⟨apiFail, 3, 1⟩ () "develop" (by decide)).2 _ rfl
     (by decide)⟩

/-! ## Client behaviour over the modelled remote -/

/-- Over the modelled remote, the client branch probe reports exactly
membership of the branch name (present branches read fine; absent ones
raise the 404 `GitlabGetError` the client catches as `false`). -/
theorem glClient_branch_exists (s : Remote) (name : String) :
    glClient.branch_exists s name = .ok (hasName s.branches name) := by
  by_cases hb : hasName s.branches name = true
  · simp [GitLabClient.branch_exists, glClient, gitlabApi, hb,
      callWithRetries_id]
  · simp only [Bool.not_eq_true] at hb
    simp [GitLabClient.branch_exists, glClient, gitlabApi, hb,
      callWithRetries_id]

/-- Over the modelled remote, the client protection pre-check reports
exactly membership of the name among the protection rule names. -/
theorem glClient_is_branch_protected (s : Remote) (name : String) :
    glClient.is_branch_protected s name = .ok (hasName s.protectedNames name) := by
  simp [GitLabClient.is_branch_protected, glClient, gitlabApi,
    callWithRetries_id, hasName]

/-- Over the modelled remote, the client approval-rule check reports
exactly membership of the rule name — branch-insensitive. -/
theorem glClient_approval_rule_exists (s : Remote) (rule_name : String) :
    glClient.approval_rule_exists s rule_name = .ok (hasName s.ruleNames rule_name) := by
  simp [GitLabClient.approval_rule_exists, glClient, gitlabApi,
    callWithRetries_id, hasName]

/-! ## C7 -/

/-- C7: the existence check behind `add_approval_rule` matches on rule name
only, not branch: two successive calls with the same rule name but
different `branch_name` arguments both return a non-Failed outcome, the
first Created and the second AlreadyExists even though it targets a
different branch. -/
theorem C7_rule_name_collision (s : Remote) (b1 b2 rule : String) (g1 g2 : Nat)
    (_hdiff : b1 ≠ b2) (hnew : hasName s.ruleNames rule = false) :
    (glClient.add_approval_rule s b1 g1 rule).1
        = .ok ⟨"created", "Approval rule added for '" ++ b1 ++ "'"⟩
  ∧ (glClient.add_approval_rule
        ((glClient.add_approval_rule s b1 g1 rule).2.1) b2 g2 rule).1
        = .ok ⟨"already_exists", "Approval rule already exists for '" ++ b2 ++ "'"⟩ := by
  have hnew' : (s.ruleNames.any fun n => n == rule) = false := by
    simpa [hasName] using hnew
  have h1 : glClient.add_approval_rule s b1 g1 rule
      = (.ok ⟨"created", "Approval rule added for '" ++ b1 ++ "'"⟩,
         { s with ruleNames := rule :: s.ruleNames },
         [CAction.readRules, CAction.createRuleCall rule]) := by
    simp [GitLabClient.add_approval_rule, GitLabClient.approval_rule_exists,
      glClient, gitlabApi, callWithRetries_id, hnew', hnew]
  refine ⟨by rw [h1], ?_⟩
  rw [h1]
  simp [GitLabClient.add_approval_rule, GitLabClient.approval_rule_exists,
    glClient, gitlabApi, callWithRetries_id]

/-- Witness for C7: same default rule name, branches "develop" and
"release", on a fresh project. -/
theorem C7_rule_name_collision_witness :
    (glClient.add_approval_rule ⟨[], [], []⟩ "develop" 7 "Maintainers Approval").1
        = .ok ⟨"created", "Approval rule added for '" ++ "develop" ++ "'"⟩
  ∧ (glClient.add_approval_rule
        ((glClient.add_approval_rule ⟨[], [], []⟩ "develop" 7 "Maintainers Approval").2.1)
        "release" 7 "Maintainers Approval").1
        = .ok ⟨"already_exists", "Approval rule already exists for '" ++ "release" ++ "'"⟩ :=
  C7_rule_name_collision ⟨[], [], []⟩ "develop" "release" "Maintainers Approval" 7 7
    (by decide) (by decide)

/-! ## C9 -/

/-- C9: idempotence of reconciliation over the modelled remote.  For each
of `create_branch`, `protect_branch` (either wildcard mode) and
`add_approval_rule`: if a first call yields the Created (resp. Protected)
outcome, a second call with identical input on the resulting remote state
yields the corresponding already-satisfied outcome — never Failed. -/
theorem C9_reconciliation_idempotent (s : Remote) (name ref : String)
    (pl ml ul : Nat) (afp coar wc : Bool) (bn rule : String) (g : Nat) :
    ((∃ d, (glClient.create_branch s name ref).1 = .ok d ∧ d.status = "created") →
      ∃ d2, (glClient.create_branch (glClient.create_branch s name ref).2.1 name ref).1
          = .ok d2 ∧ d2.status = "already_exists")
  ∧ ((∃ d, (glClient.protect_branch s name pl ml ul afp coar wc).1 = .ok d ∧
        d.status = "protected") →
      ∃ d2, (glClient.protect_branch
            (glClient.protect_branch s name pl ml ul afp coar wc).2.1
            name pl ml ul afp coar wc).1 = .ok d2 ∧ d2.status = "already_protected")
  ∧ ((∃ d, (glClient.add_approval_rule s bn g rule).1 = .ok d ∧ d.status = "created") →
      ∃ d2, (glClient.add_approval_rule
            (glClient.add_approval_rule s bn g rule).2.1 bn g rule).1
          = .ok d2 ∧ d2.status = "already_exists") := by
  have hsub : strContainsSub "Protected branch has already been protected"
      "already been protected" = true := by decide
  refine ⟨?_, ?_, ?_⟩
  · rintro ⟨d, hd, hstat⟩
    by_cases hb : hasName s.branches name = true
    · have h1 : (glClient.create_branch s name ref).1
          = .ok ⟨"already_exists", "Branch already exists"⟩ := by
        simp [GitLabClient.create_branch, GitLabClient.branch_exists,
          glClient, gitlabApi, callWithRetries_id, hb]
      rw [h1] at hd
      injection hd with hd'
      subst hd'
      simp at hstat
    · have hb' : hasName s.branches name = false := by
        simpa only [Bool.not_eq_true] using hb
      have h1 : glClient.create_branch s name ref
          = (.ok ⟨"created", "Branch created successfully"⟩,
             { s with branches := name :: s.branches },
             [CAction.readBranch name, CAction.createBranchCall name ref]) := by
        simp [GitLabClient.create_branch, GitLabClient.branch_exists,
          glClient, gitlabApi, callWithRetries_id, hb']
      refine ⟨⟨"already_exists", "Branch already exists"⟩, ?_, rfl⟩
      rw [h1]
      simp [GitLabClient.create_branch, GitLabClient.branch_exists,
        glClient, gitlabApi, callWithRetries_id, hasName]
  · rintro ⟨d, hd, hstat⟩
    cases wc with
    | false =>
        by_cases hp : hasName s.protectedNames name = true
        · have hp' : (s.protectedNames.any fun n => n == name) = true := by
            simpa [hasName] using hp
          have h1 : (glClient.protect_branch s name pl ml ul afp coar false).1
              = .ok ⟨"already_protected", "Branch is already protected"⟩ := by
            simp [GitLabClient.protect_branch, GitLabClient.is_branch_protected,
              glClient, gitlabApi, callWithRetries_id, hp']
          rw [h1] at hd
          injection hd with hd'
          subst hd'
          simp at hstat
        · have hp'' : hasName s.protectedNames name = false := by
            simpa only [Bool.not_eq_true] using hp
          have hp' : (s.protectedNames.any fun n => n == name) = false := hp''
          have h1 : glClient.protect_branch s name pl ml ul afp coar false
              = (.ok ⟨"protected", "Branch protected successfully"⟩,
                 { s with protectedNames := name :: s.protectedNames },
                 [CAction.readProtected, CAction.createProtectedCall name]) := by
            simp [GitLabClient.protect_branch, GitLabClient.is_branch_protected,
              glClient, gitlabApi, callWithRetries_id, hp', hp'']
          refine ⟨⟨"already_protected", "Branch is already protected"⟩, ?_, rfl⟩
          rw [h1]
          simp [GitLabClient.protect_branch, GitLabClient.is_branch_protected,
            glClient, gitlabApi, callWithRetries_id, hasName]
    | true =>
        by_cases hp : hasName s.protectedNames name = true
        · have h1 : (glClient.protect_branch s name pl ml ul afp coar true).1
              = .ok ⟨"already_protected", "Branch is already protected"⟩ := by
            simp [GitLabClient.protect_branch, glClient, gitlabApi,
              callWithRetries_id, hp, hsub]
          rw [h1] at hd
          injection hd with hd'
          subst hd'
          simp at hstat
        · have hp'' : hasName s.protectedNames name = false := by
            simpa only [Bool.not_eq_true] using hp
          have h1 : glClient.protect_branch s name pl ml ul afp coar true
              = (.ok ⟨"protected", "Branch protected successfully"⟩,
                 { s with protectedNames := name :: s.protectedNames },
                 [CAction.createProtectedCall name]) := by
            simp [GitLabClient.protect_branch, glClient, gitlabApi,
              callWithRetries_id, hp'']
          refine ⟨⟨"already_protected", "Branch is already protected"⟩, ?_, rfl⟩
          rw [h1]
          simp [GitLabClient.protect_branch, glClient, gitlabApi,
            callWithRetries_id, hasName, hsub]
  · rintro ⟨d, hd, hstat⟩
    by_cases hr : hasName s.ruleNames rule = true
    · have hr' : (s.ruleNames.any fun n => n == rule) = true := by
        simpa [hasName] using hr
      have h1 : (glClient.add_approval_rule s bn g rule).1
          = .ok ⟨"already_exists", "Approval rule already exists for '" ++ bn ++ "'"⟩ := by
        simp [GitLabClient.add_approval_rule, GitLabClient.approval_rule_exists,
          glClient, gitlabApi, callWithRetries_id, hr']
      rw [h1] at hd
      injection hd with hd'
      subst hd'
      simp at hstat
    · have hr'' : hasName s.ruleNames rule = false := by
        simpa only [Bool.not_eq_true] using hr
      have hr' : (s.ruleNames.any fun n => n == rule) = false := hr''
      have h1 : glClient.add_approval_rule s bn g rule
          = (.ok ⟨"created", "Approval rule added for '" ++ bn ++ "'"⟩,
             { s with ruleNames := rule :: s.ruleNames },
             [CAction.readRules, CAction.createRuleCall rule]) := by
        simp [GitLabClient.add_approval_rule, GitLabClient.approval_rule_exists,
          glClient, gitlabApi, callWithRetries_id, hr', hr'']
      refine ⟨⟨"already_exists", "Approval rule already exists for '" ++ bn ++ "'"⟩,
        ?_, rfl⟩
      rw [h1]
      simp [GitLabClient.add_approval_rule, GitLabClient.approval_rule_exists,
        glClient, gitlabApi, callWithRetries_id, hasName]

/-- Witness for C9 at a fresh project: a created branch, a protection and
an approval rule each report already-satisfied on the second call. -/
theorem C9_reconciliation_idempotent_witness :
    (∃ d2, (glClient.create_branch
        (glClient.create_branch ⟨["main"], [], []⟩ "develop" "main").2.1
        "develop" "main").1 = .ok d2 ∧ d2.status = "already_exists")
  ∧ (∃ d2, (glClient.protect_branch
        (glClient.protect_branch ⟨["main"], [], []⟩ "develop" 40 40 40 false false false).2.1
        "develop" 40 40 40 false false false).1 = .ok d2 ∧ d2.status = "already_protected")
  ∧ (∃ d2, (glClient.add_approval_rule
        (glClient.add_approval_rule ⟨["main"], [], []⟩ "develop" 7 "Maintainers Approval").2.1
        "develop" 7 "Maintainers Approval").1 = .ok d2 ∧ d2.status = "already_exists") :=
  ⟨(C9_reconciliation_idempotent ⟨["main"], [], []⟩ "develop" "main" 40 40 40
      false false false "develop" "Maintainers Approval" 7).1
    ⟨⟨"created", "Branch created successfully"⟩, by decide, rfl⟩,
   (C9_reconciliation_idempotent ⟨["main"], [], []⟩ "develop" "main" 40 40 40
      false false false "develop" "Maintainers Approval" 7).2.1
    ⟨⟨"protected", "Branch protected successfully"⟩, by decide, rfl⟩,
   (C9_reconciliation_idempotent ⟨["main"], [], []⟩ "develop" "main" 40 40 40
      false false false "develop" "Maintainers Approval" 7).2.2
    ⟨⟨"created", "Approval rule added for '" ++ "develop" ++ "'"⟩, by decide, rfl⟩⟩
